import Mathlib

/-!
# Verification of the order-state coordinator
(`src/order-service/api/consumer.py` of riteshaxelerant/python-sanic-kafka-sample-code)

Shallow embedding of the Kafka consumer loop `order_service_consumer` and its
helper `check_order_status`.  The mutable world visible to the consumer is:

* the `order_service_db.orders` table, modelled as an association list of
  `(id, status)` rows (`fetchval "SELECT status … WHERE id=$1"` returns the
  first matching row's status, or `None` when there is no row);
* the `order_service_db.registered_users` table, modelled as the list of
  inserted `user_id` values in insertion order;
* the stream of messages produced to the dead-letter topic;
* an audit log of the store operations issued (used to state "no store
  access" properties).

Python exceptions that can escape the per-message code are made explicit in
`StepResult.exn`: the `while True:` body is wrapped only in
`try … except KeyboardInterrupt`, so any other exception terminates the loop.
-/

namespace OrderConsumer

/-- Topic names from the environment configuration
(`KAKFA_CONSUMER_SUBSCRIBE_TOPIC_USR_REG` etc.), fixed to distinct
representative values, as in any sane deployment. -/
def TOPIC_USR_REG : String := "user-registration"

/-- The payment-success inbound topic (`KAKFA_CONSUMER_SUBSCRIBE_TOPIC_PAY_SUCC`). -/
def TOPIC_PAY_SUCC : String := "payment-success"

/-- The payment-failure inbound topic (`KAKFA_CONSUMER_SUBSCRIBE_TOPIC_PAY_FAIL`). -/
def TOPIC_PAY_FAIL : String := "payment-failure"

/-- The outbound dead-letter topic (`KAFKA_PRODUCER_TOPIC_DLQ`). -/
def TOPIC_DLQ : String := "dlq"

/-- First-match association-list lookup.  Models both a Python `dict` lookup
on the decoded payload and `fetchval` of a single-column `SELECT … WHERE`
query on a keyed table. -/
def lookupKey : List (String × String) → String → Option String
  | [], _ => none
  | (k, v) :: rest, key => if k = key then some v else lookupKey rest key

/-- The statement `UPDATE order_service_db.orders SET status=$new WHERE id=$1`: sets the
status of every row whose id matches, unconditionally on the current
status (the source UPDATE has no `AND status='Pending'` guard). -/
def updateStatus : List (String × String) → String → String →
    List (String × String)
  | [], _, _ => []
  | (k, v) :: rest, oid, newStatus =>
    (if k = oid then (k, newStatus) else (k, v)) :: updateStatus rest oid newStatus

/-- Result of the Python helper `check_order_status`: it returns the fetched
status string, or `None` (no row), or `False` when a database exception was
caught. -/
inductive CheckResult
  | val (s : String)
  | noneVal
  | falseVal
  deriving DecidableEq, Repr

/-- The helper `check_order_status(order_id)` from `consumer.py`: fetch the status of
the order, returning `False` on any database exception (`dbFail` selects the
exception path; the `except` clause swallows the error). -/
def check_order_status (dbFail : Bool) (orders : List (String × String))
    (order_id : String) : CheckResult :=
  if dbFail then .falseVal
  else
    match lookupKey orders order_id with
    | some s => .val s
    | none => .noneVal

/-- The Python comparison `order_status == 'Pending'`: true only when the
helper returned an actual status string equal to `'Pending'`
(`False == 'Pending'` and `None == 'Pending'` are both false). -/
def CheckResult.eqPending : CheckResult → Bool
  | .val s => s == "Pending"
  | _ => false

/-- A raw message value after UTF-8 decode, quote normalisation and
`json.loads`: either the parse raised (`json.loads` throws on a payload that
is not a well-formed mapping) or a flat string-keyed mapping. -/
inductive Payload
  | malformed
  | obj (fields : List (String × String))
  deriving DecidableEq, Repr

/-- Exceptions that can be raised inside the loop body; none of them is
caught there (only `KeyboardInterrupt` is caught, outside the loop). -/
inductive PyExn
  | jsonDecodeError
  | keyError (k : String)
  | uniqueViolation
  deriving DecidableEq, Repr

/-- One message produced to the dead-letter topic:
`p.produce(KAFKA_PRODUCER_TOPIC_DLQ, value=str(message_for_dlq))`.
`value` is the field list of the `message_for_dlq` dict literal. -/
structure DlqMsg where
  destTopic : String
  value : List (String × String)
  deriving DecidableEq, Repr

/-- The dict literal `{"topic": t, "error": e}` sent to the DLQ: it carries
exactly those two keys. -/
def mkDlq (srcTopic err : String) : DlqMsg :=
  ⟨TOPIC_DLQ, [("topic", srcTopic), ("error", err)]⟩

/-- A store operation issued by the consumer, for auditing access. -/
inductive StoreOp
  | selectStatus (oid : String)
  | updateOrder (oid : String) (newStatus : String)
  | insertUser (uid : String)
  deriving DecidableEq, Repr

/-- The world state the consumer mutates. -/
structure CState where
  orders : List (String × String)
  users : List String
  dlq : List DlqMsg
  ops : List StoreOp
  deriving DecidableEq, Repr

/-- Outcome of processing one polled message: either the body completed
(`ok`) or an exception escaped, freezing the state reached so far (`exn`). -/
inductive StepResult
  | ok (st : CState)
  | exn (e : PyExn) (st : CState)
  deriving DecidableEq, Repr

/-- The state carried by a step result. -/
def StepResult.state : StepResult → CState
  | .ok st => st
  | .exn _ st => st

/-- Modelled from the spec: the repository contains no DDL for
`order_service_db.registered_users` (the coordinator "requires … two logical
tables it did not create"); per the spec data model, `user_id` is a unique
key, so a plain `INSERT INTO registered_users(user_id) VALUES($1)` of an
already-present `user_id` raises a unique-constraint violation, and
otherwise appends the row. -/
def insertUserRow (users : List String) (uid : String) :
    Except Unit (List String) :=
  if users.contains uid then .error () else .ok (users ++ [uid])

/-- The branch bodies of `elif topic == …PAY_SUCC/PAY_FAIL` in the loop (they
are textually identical in the source up to the target status `'Paid'`
versus `'Failed'` and the topic named in the DLQ record): validate
`data["order_id"]`, and either produce a DLQ record, or check the status and
issue the unconditional UPDATE when the check returned `'Pending'`. -/
def handlePayment (dbFail : Bool) (st : CState) (topic newStatus : String)
    (data : List (String × String)) : StepResult :=
  match lookupKey data "order_id" with
  | none => .exn (.keyError "order_id") st
  | some oid =>
    if oid.isEmpty then
      .ok { st with dlq := st.dlq ++ [mkDlq topic "Order ID is not valid"] }
    else
      let order_status := check_order_status dbFail st.orders oid
      let st1 := { st with ops := st.ops ++ [.selectStatus oid] }
      if order_status.eqPending then
        .ok { st1 with
                orders := updateStatus st1.orders oid newStatus,
                ops := st1.ops ++ [.updateOrder oid newStatus] }
      else
        .ok st1

/-- The body of the `while True:` loop of `order_service_consumer` for a
successfully polled message, after `msg.value().decode('utf-8')`, the quote
substitution and `json.loads` (a parse failure raises and is modelled by the
`malformed` payload): dispatch on the topic and handle the event.  A topic
matching none of the three `if`/`elif` arms falls through with no action. -/
def processMsg (dbFail : Bool) (st : CState) (topic : String) (p : Payload) :
    StepResult :=
  match p with
  | .malformed => .exn .jsonDecodeError st
  | .obj data =>
    if topic = TOPIC_USR_REG then
      match lookupKey data "user_id" with
      | none => .exn (.keyError "user_id") st
      | some uid =>
        if uid.isEmpty then
          .ok { st with dlq := st.dlq ++ [mkDlq TOPIC_USR_REG "User is not valid"] }
        else
          match insertUserRow st.users uid with
          | .error _ => .exn .uniqueViolation st
          | .ok users1 =>
            .ok { st with users := users1, ops := st.ops ++ [.insertUser uid] }
    else if topic = TOPIC_PAY_SUCC then
      handlePayment dbFail st TOPIC_PAY_SUCC "Paid" data
    else if topic = TOPIC_PAY_FAIL then
      handlePayment dbFail st TOPIC_PAY_FAIL "Failed" data
    else
      .ok st

/-- Sequential processing of a list of polled messages by the single
consumer loop; an escaping exception terminates the loop, freezing the
state. -/
def processMsgs (dbFail : Bool) (st : CState) :
    List (String × Payload) → CState
  | [] => st
  | (t, p) :: rest =>
    match processMsg dbFail st t p with
    | .ok st1 => processMsgs dbFail st1 rest
    | .exn _ st1 => st1

/-- What `c.poll(1000)` hands the loop on one iteration: nothing, a message
carrying a broker error (partition EOF or other), an actual message, or a
`KeyboardInterrupt` delivered at the poll (the explicit shutdown signal). -/
inductive PollItem
  | empty
  | brokerError (partitionEof : Bool)
  | msg (topic : String) (p : Payload)
  | interrupt
  deriving DecidableEq, Repr

/-- How the consumer loop ended. -/
inductive LoopExit
  | interrupted
  | crashed (e : PyExn)
  | ranOut
  deriving DecidableEq, Repr

/-- The `while True:` loop over a finite trace of poll results: empty polls
and broker-error messages are logged and skipped (`continue`), a
`KeyboardInterrupt` is caught by the surrounding `except KeyboardInterrupt`
(clean shutdown), and any other exception escaping the body terminates the
loop.  `ranOut` means the trace was exhausted with the loop still running. -/
def runLoop (dbFail : Bool) (st : CState) :
    List PollItem → CState × LoopExit
  | [] => (st, .ranOut)
  | item :: rest =>
    match item with
    | .empty => runLoop dbFail st rest
    | .brokerError _ => runLoop dbFail st rest
    | .interrupt => (st, .interrupted)
    | .msg t p =>
      match processMsg dbFail st t p with
      | .ok st1 => runLoop dbFail st1 rest
      | .exn e st1 => (st1, .crashed e)

/-- The required key and the DLQ reason string used by each of the three
inbound-topic branches of the source dispatch (`data["user_id"]` /
`"User is not valid"` for the registration branch, `data["order_id"]` /
`"Order ID is not valid"` for both payment branches). -/
def requiredKey (t : String) : Option (String × String) :=
  if t = TOPIC_USR_REG then some ("user_id", "User is not valid")
  else if t = TOPIC_PAY_SUCC then some ("order_id", "Order ID is not valid")
  else if t = TOPIC_PAY_FAIL then some ("order_id", "Order ID is not valid")
  else none

/-!
## Micro-step model of the payment branch

The payment branches execute two separate store operations: a `SELECT`
(inside `check_order_status`, on its own pool/connection) and then an
unconditional `UPDATE` on another connection.  To examine interleavings of
two concurrently (or redundantly) delivered events for the same order, each
handler is split at that boundary into atomic micro-steps over the shared
`orders` table, with the fetched status held in the handler-local variable
`order_status` between the two steps.
-/

/-- One in-flight payment-event handler: the order id from the event and
the status it writes (`'Paid'` for a success event, `'Failed'` for a
failure event). -/
structure Handler where
  oid : String
  newStatus : String
  deriving DecidableEq, Repr

/-- The control point of a payment handler: before the status read, after
the read (holding the local `order_status`), or finished. -/
inductive HPhase
  | start
  | readDone (order_status : CheckResult)
  | done
  deriving DecidableEq, Repr

/-- A handler together with its control point. -/
structure HState where
  h : Handler
  phase : HPhase
  deriving DecidableEq, Repr

/-- One atomic micro-step of a payment handler against the shared orders
table: the read step runs `check_order_status`; the write step issues the
unconditional `UPDATE` when the previously read `order_status` compared
equal to `'Pending'`, and otherwise does nothing.  A finished handler does
nothing. -/
def hstep (hs : HState) (orders : List (String × String)) :
    HState × List (String × String) :=
  match hs.phase with
  | .start =>
    ({ hs with phase := .readDone (check_order_status false orders hs.h.oid) },
     orders)
  | .readDone r =>
    if r.eqPending then
      ({ hs with phase := .done }, updateStatus orders hs.h.oid hs.h.newStatus)
    else
      ({ hs with phase := .done }, orders)
  | .done => (hs, orders)

/-- Run two payment handlers `a` and `b` over the shared orders table under
a schedule: `true` lets `a` take its next micro-step, `false` lets `b`. -/
def runSched (a b : HState) (orders : List (String × String)) :
    List Bool → List (String × String)
  | [] => orders
  | true :: rest =>
    let s := hstep a orders
    runSched s.1 b s.2 rest
  | false :: rest =>
    let s := hstep b orders
    runSched a s.1 s.2 rest

/-!
## Basic lemmas about the store operations
-/

lemma lookupKey_nil (key : String) : lookupKey [] key = none := rfl

lemma lookupKey_cons (k v key : String) (rest : List (String × String)) :
    lookupKey ((k, v) :: rest) key =
      if k = key then some v else lookupKey rest key := rfl

lemma updateStatus_nil (oid t : String) : updateStatus [] oid t = [] := rfl

lemma updateStatus_cons (k v oid t : String) (rest : List (String × String)) :
    updateStatus ((k, v) :: rest) oid t =
      (if k = oid then (k, t) else (k, v)) :: updateStatus rest oid t := rfl

lemma lookupKey_update_self {rows : List (String × String)} {oid s : String}
    (t : String) (h : lookupKey rows oid = some s) :
    lookupKey (updateStatus rows oid t) oid = some t := by
  induction rows with
  | nil => simp [lookupKey_nil] at h
  | cons r rest ih =>
    obtain ⟨k, v⟩ := r
    rw [updateStatus_cons]
    by_cases hk : k = oid
    · rw [if_pos hk, lookupKey_cons, if_pos hk]
    · rw [lookupKey_cons, if_neg hk] at h
      rw [if_neg hk, lookupKey_cons, if_neg hk]
      exact ih h

lemma lookupKey_update_ne {x oid : String} (rows : List (String × String))
    (t : String) (h : x ≠ oid) :
    lookupKey (updateStatus rows oid t) x = lookupKey rows x := by
  induction rows with
  | nil => rw [updateStatus_nil]
  | cons r rest ih =>
    obtain ⟨k, v⟩ := r
    rw [updateStatus_cons]
    by_cases hk : k = oid
    · have hkx : ¬ k = x := fun hkx => h (hk ▸ hkx ▸ rfl)
      rw [if_pos hk, lookupKey_cons, if_neg hkx, lookupKey_cons, if_neg hkx, ih]
    · rw [if_neg hk, lookupKey_cons, lookupKey_cons, ih]

lemma eqPending_check {dbFail : Bool} {orders : List (String × String)}
    {oid : String}
    (h : (check_order_status dbFail orders oid).eqPending = true) :
    dbFail = false ∧ lookupKey orders oid = some "Pending" := by
  cases dbFail with
  | true => simp [check_order_status, CheckResult.eqPending] at h
  | false =>
    refine ⟨rfl, ?_⟩
    cases hl : lookupKey orders oid with
    | none => simp [check_order_status, hl, CheckResult.eqPending] at h
    | some s =>
      simp only [check_order_status, if_neg (by simp : ¬ (false = true)), hl,
        CheckResult.eqPending, beq_iff_eq] at h
      simp [hl, h]

lemma empty_isEmpty : ("" : String).isEmpty = true := rfl

lemma succ_ne_usr : TOPIC_PAY_SUCC ≠ TOPIC_USR_REG := by decide

lemma fail_ne_usr : TOPIC_PAY_FAIL ≠ TOPIC_USR_REG := by decide

lemma fail_ne_succ : TOPIC_PAY_FAIL ≠ TOPIC_PAY_SUCC := by decide

/-- Effect of one payment-branch execution on the status visible for any
order id `X`: either unchanged, or it was `'Pending'` and became the
written status. -/
lemma handlePayment_orders (dbFail : Bool) (st : CState)
    (topic newStatus : String) (data : List (String × String)) (X : String) :
    lookupKey (handlePayment dbFail st topic newStatus data).state.orders X
        = lookupKey st.orders X ∨
      (lookupKey st.orders X = some "Pending" ∧
        lookupKey (handlePayment dbFail st topic newStatus data).state.orders X
          = some newStatus) := by
  unfold handlePayment
  cases hd : lookupKey data "order_id" with
  | none => left; rfl
  | some oid =>
    by_cases he : oid.isEmpty
    · simp [he, StepResult.state]
    · simp only [he, Bool.false_eq_true, if_false]
      cases hp : (check_order_status dbFail st.orders oid).eqPending with
      | false => simp [hp, StepResult.state]
      | true =>
        obtain ⟨hdb, hpend⟩ := eqPending_check hp
        by_cases hX : X = oid
        · subst hX
          right
          exact ⟨hpend, by simp [hp, StepResult.state, lookupKey_update_self _ hpend]⟩
        · left
          simp [hp, StepResult.state, lookupKey_update_ne _ _ hX]

/-- Effect of processing one message on the status visible for any order id
`X`: either unchanged, or it was `'Pending'` and became `'Paid'` or
`'Failed'`. -/
lemma processMsg_orders (dbFail : Bool) (st : CState) (t : String)
    (p : Payload) (X : String) :
    lookupKey (processMsg dbFail st t p).state.orders X
        = lookupKey st.orders X ∨
      (lookupKey st.orders X = some "Pending" ∧
        (lookupKey (processMsg dbFail st t p).state.orders X = some "Paid" ∨
         lookupKey (processMsg dbFail st t p).state.orders X = some "Failed")) := by
  cases p with
  | malformed => left; rfl
  | obj data =>
    by_cases h1 : t = TOPIC_USR_REG
    · left
      simp only [processMsg, h1, if_pos rfl]
      cases lookupKey data "user_id" with
      | none => rfl
      | some uid =>
        by_cases he : uid.isEmpty
        · simp [he, StepResult.state]
        · simp only [he, Bool.false_eq_true, if_false]
          cases insertUserRow st.users uid with
          | error e => rfl
          | ok users1 => rfl
    · by_cases h2 : t = TOPIC_PAY_SUCC
      · simp only [processMsg, h1, if_false, h2, if_pos rfl]
        rcases handlePayment_orders dbFail st TOPIC_PAY_SUCC "Paid" data X with
          h | ⟨hp, hw⟩
        · left; exact h
        · right; exact ⟨hp, Or.inl hw⟩
      · by_cases h3 : t = TOPIC_PAY_FAIL
        · simp only [processMsg, h1, if_false, h2, h3, if_pos rfl]
          rcases handlePayment_orders dbFail st TOPIC_PAY_FAIL "Failed" data X with
            h | ⟨hp, hw⟩
          · left; exact h
          · right; exact ⟨hp, Or.inr hw⟩
        · left
          simp [processMsg, h1, h2, h3, StepResult.state]

/-- A non-`'Pending'` status visible for `X` is never changed by the loop,
whatever messages arrive. -/
lemma processMsgs_frozen (dbFail : Bool) (st : CState)
    (msgs : List (String × Payload)) (X s : String) (hs : s ≠ "Pending")
    (h : lookupKey st.orders X = some s) :
    lookupKey (processMsgs dbFail st msgs).orders X = some s := by
  induction msgs generalizing st with
  | nil => exact h
  | cons m rest ih =>
    obtain ⟨t, p⟩ := m
    have hstep := processMsg_orders dbFail st t p X
    rcases hstep with heq | ⟨hpend, _⟩
    · cases hres : processMsg dbFail st t p with
      | ok st1 =>
        rw [hres] at heq
        simp only [processMsgs, hres]
        exact ih st1 (heq.trans h)
      | exn e st1 =>
        rw [hres] at heq
        simp only [processMsgs, hres]
        exact heq.trans h
    · rw [h] at hpend
      exact absurd (Option.some.inj hpend) hs

/-- Over any message list, the status visible for `X` either stays what it
was or goes from `'Pending'` to `'Paid'` or `'Failed'`. -/
lemma processMsgs_orders (dbFail : Bool) (st : CState)
    (msgs : List (String × Payload)) (X : String) :
    lookupKey (processMsgs dbFail st msgs).orders X
        = lookupKey st.orders X ∨
      (lookupKey st.orders X = some "Pending" ∧
        (lookupKey (processMsgs dbFail st msgs).orders X = some "Paid" ∨
         lookupKey (processMsgs dbFail st msgs).orders X = some "Failed")) := by
  induction msgs generalizing st with
  | nil => left; rfl
  | cons m rest ih =>
    obtain ⟨t, p⟩ := m
    rcases processMsg_orders dbFail st t p X with heq | ⟨hpend, hterm⟩
    · cases hres : processMsg dbFail st t p with
      | ok st1 =>
        rw [hres] at heq
        simp only [processMsgs, hres]
        rcases ih st1 with h1 | ⟨h1, h2⟩
        · left; exact h1.trans heq
        · right; exact ⟨heq ▸ h1, h2⟩
      | exn e st1 =>
        rw [hres] at heq
        simp only [processMsgs, hres]
        left; exact heq
    · cases hres : processMsg dbFail st t p with
      | ok st1 =>
        rw [hres] at hterm
        simp only [processMsgs, hres]
        rcases hterm with h1 | h1
        · right
          exact ⟨hpend, Or.inl (processMsgs_frozen dbFail st1 rest X "Paid"
            (by decide) h1)⟩
        · right
          exact ⟨hpend, Or.inr (processMsgs_frozen dbFail st1 rest X "Failed"
            (by decide) h1)⟩
      | exn e st1 =>
        rw [hres] at hterm
        simp only [processMsgs, hres]
        right; exact ⟨hpend, hterm⟩

/-- Dispatch: a message on one of the two payment topics is handled by the
corresponding payment branch. -/
lemma processMsg_pay (dbFail : Bool) (st : CState) (t newStatus : String)
    (data : List (String × String))
    (ht : (t = TOPIC_PAY_SUCC ∧ newStatus = "Paid") ∨
          (t = TOPIC_PAY_FAIL ∧ newStatus = "Failed")) :
    processMsg dbFail st t (.obj data) =
      handlePayment dbFail st t newStatus data := by
  rcases ht with ⟨rfl, rfl⟩ | ⟨rfl, rfl⟩
  · simp [processMsg, succ_ne_usr]
  · simp [processMsg, fail_ne_usr, fail_ne_succ]

/-- The payment branch on a payload whose `order_id` is present and
non-empty: read the status, then update iff the read came back
`'Pending'`. -/
lemma handlePayment_valid (dbFail : Bool) (st : CState)
    (topic newStatus oid : String) (data : List (String × String))
    (hd : lookupKey data "order_id" = some oid) (h0 : oid ≠ "") :
    handlePayment dbFail st topic newStatus data =
      if (check_order_status dbFail st.orders oid).eqPending then
        .ok { st with orders := updateStatus st.orders oid newStatus,
                      ops := (st.ops ++ [.selectStatus oid])
                               ++ [.updateOrder oid newStatus] }
      else
        .ok { st with ops := st.ops ++ [.selectStatus oid] } := by
  have he : ¬ oid.isEmpty = true := by
    simp [String.isEmpty_iff, h0]
  unfold handlePayment
  rw [hd]
  simp only [he, Bool.false_eq_true, if_false]

/-- A valid payment event for an order currently `'Pending'` (no database
failure): the status is updated to the event's target status. -/
lemma processMsg_pending_step (st : CState) (X t newStatus : String)
    (d : List (String × String))
    (ht : (t = TOPIC_PAY_SUCC ∧ newStatus = "Paid") ∨
          (t = TOPIC_PAY_FAIL ∧ newStatus = "Failed"))
    (hp : lookupKey st.orders X = some "Pending")
    (hd : lookupKey d "order_id" = some X) (h0 : X ≠ "") :
    processMsg false st t (.obj d) =
      .ok { st with orders := updateStatus st.orders X newStatus,
                    ops := (st.ops ++ [.selectStatus X])
                             ++ [.updateOrder X newStatus] } := by
  rw [processMsg_pay false st t newStatus d ht, handlePayment_valid false st t
    newStatus X d hd h0]
  have hc : (check_order_status false st.orders X).eqPending = true := by
    simp [check_order_status, hp, CheckResult.eqPending]
  rw [if_pos hc]

/-- A valid payment event whose status read does not come back `'Pending'`
(row absent, row terminal, or database failure): only the read happens. -/
lemma processMsg_notPending_step (dbFail : Bool) (st : CState)
    (X t newStatus : String) (d : List (String × String))
    (ht : (t = TOPIC_PAY_SUCC ∧ newStatus = "Paid") ∨
          (t = TOPIC_PAY_FAIL ∧ newStatus = "Failed"))
    (hnp : (check_order_status dbFail st.orders X).eqPending = false)
    (hd : lookupKey d "order_id" = some X) (h0 : X ≠ "") :
    processMsg dbFail st t (.obj d) =
      .ok { st with ops := st.ops ++ [.selectStatus X] } := by
  rw [processMsg_pay dbFail st t newStatus d ht,
    handlePayment_valid dbFail st t newStatus X d hd h0]
  simp [hnp]

/-!
## Claim theorems
-/

/-- Claim C1: For every order whose status is `Pending`, processing any
sequence of payment-success/failure events for that order moves its status
to the terminal status carried by the first event processed (`Paid` for a
success event, `Failed` for a failure event), and every later event leaves
it unchanged (first conjunct, which allows arbitrary further traffic after
the first event); no sequence of consumed messages ever changes a status
other than from `Pending` (second conjunct); and any status change at all
is a `Pending → Paid` or `Pending → Failed` transition (third conjunct). -/
theorem C1_guarded_transitions :
    (∀ (st : CState) (X t : String) (d : List (String × String))
        (rest : List (String × Payload)),
        lookupKey st.orders X = some "Pending" →
        lookupKey d "order_id" = some X → X ≠ "" →
        (t = TOPIC_PAY_SUCC ∨ t = TOPIC_PAY_FAIL) →
        lookupKey (processMsgs false st ((t, .obj d) :: rest)).orders X
          = some (if t = TOPIC_PAY_SUCC then "Paid" else "Failed")) ∧
    (∀ (dbFail : Bool) (st : CState) (msgs : List (String × Payload))
        (X s : String),
        s ≠ "Pending" → lookupKey st.orders X = some s →
        lookupKey (processMsgs dbFail st msgs).orders X = some s) ∧
    (∀ (dbFail : Bool) (st : CState) (msgs : List (String × Payload))
        (X : String),
        lookupKey (processMsgs dbFail st msgs).orders X
            = lookupKey st.orders X ∨
          (lookupKey st.orders X = some "Pending" ∧
            (lookupKey (processMsgs dbFail st msgs).orders X = some "Paid" ∨
             lookupKey (processMsgs dbFail st msgs).orders X = some "Failed"))) := by
  refine ⟨?_, processMsgs_frozen, processMsgs_orders⟩
  intro st X t d rest hp hd h0 ht
  rcases ht with rfl | rfl
  · have hstep := processMsg_pending_step st X TOPIC_PAY_SUCC "Paid" d
      (Or.inl ⟨rfl, rfl⟩) hp hd h0
    simp only [processMsgs, hstep, if_true]
    exact processMsgs_frozen false _ rest X "Paid" (by decide)
      (lookupKey_update_self "Paid" hp)
  · have hstep := processMsg_pending_step st X TOPIC_PAY_FAIL "Failed" d
      (Or.inr ⟨rfl, rfl⟩) hp hd h0
    simp only [processMsgs, hstep]
    rw [if_neg fail_ne_succ]
    exact processMsgs_frozen false _ rest X "Failed" (by decide)
      (lookupKey_update_self "Failed" hp)

/-- Closed instance of C1: a pending order receives a success event and
then a failure event; the first one wins and the status ends `Paid`. -/
theorem C1_guarded_transitions_witness :
    lookupKey (processMsgs false ⟨[("X", "Pending")], [], [], []⟩
        [(TOPIC_PAY_SUCC, .obj [("order_id", "X")]),
         (TOPIC_PAY_FAIL, .obj [("order_id", "X")])]).orders "X"
      = some (if TOPIC_PAY_SUCC = TOPIC_PAY_SUCC then "Paid" else "Failed") :=
  C1_guarded_transitions.1 ⟨[("X", "Pending")], [], [], []⟩ "X" TOPIC_PAY_SUCC
    [("order_id", "X")] [(TOPIC_PAY_FAIL, Payload.obj [("order_id", "X")])]
    (by decide) (by decide) (by decide) (Or.inl rfl)

/-- Claim C7: A `PaymentSucceeded` event for an order already `Paid` produces
no DLQ entry, no state change and no exception — only the status read is
issued (first conjunct); and replaying a valid success event after it has
been applied leaves the status `Paid` with no DLQ entry and no exception
(second conjunct). -/
theorem C7_replay_idempotent :
    (∀ (st : CState) (oid : String) (data : List (String × String)),
        lookupKey st.orders oid = some "Paid" →
        lookupKey data "order_id" = some oid → oid ≠ "" →
        processMsg false st TOPIC_PAY_SUCC (.obj data) =
          .ok { st with ops := st.ops ++ [.selectStatus oid] }) ∧
    (∀ (st : CState) (oid : String) (data : List (String × String)),
        lookupKey st.orders oid = some "Pending" →
        lookupKey data "order_id" = some oid → oid ≠ "" →
        ∃ st1 : CState,
          processMsg false st TOPIC_PAY_SUCC (.obj data) = .ok st1 ∧
          lookupKey st1.orders oid = some "Paid" ∧
          st1.dlq = st.dlq ∧ st1.users = st.users ∧
          processMsg false st1 TOPIC_PAY_SUCC (.obj data) =
            .ok { st1 with ops := st1.ops ++ [.selectStatus oid] }) := by
  have hpaid : ∀ (st : CState) (oid : String) (data : List (String × String)),
      lookupKey st.orders oid = some "Paid" →
      lookupKey data "order_id" = some oid → oid ≠ "" →
      processMsg false st TOPIC_PAY_SUCC (.obj data) =
        .ok { st with ops := st.ops ++ [.selectStatus oid] } := by
    intro st oid data hs hd h0
    refine processMsg_notPending_step false st oid TOPIC_PAY_SUCC "Paid" data
      (Or.inl ⟨rfl, rfl⟩) ?_ hd h0
    simp [check_order_status, hs, CheckResult.eqPending]
  refine ⟨hpaid, ?_⟩
  intro st oid data hs hd h0
  refine ⟨_, processMsg_pending_step st oid TOPIC_PAY_SUCC "Paid" data
      (Or.inl ⟨rfl, rfl⟩) hs hd h0, ?_, rfl, rfl, ?_⟩
  · exact lookupKey_update_self "Paid" hs
  · exact hpaid _ oid data (lookupKey_update_self "Paid" hs) hd h0

/-- Closed instance of C7: replaying a success event for order `X` already
`Paid` only re-issues the status read. -/
theorem C7_replay_idempotent_witness :
    processMsg false ⟨[("X", "Paid")], [], [], []⟩ TOPIC_PAY_SUCC
        (.obj [("order_id", "X")]) =
      .ok ⟨[("X", "Paid")], [], [], [.selectStatus "X"]⟩ :=
  C7_replay_idempotent.1 ⟨[("X", "Paid")], [], [], []⟩ "X"
    [("order_id", "X")] (by decide) (by decide) (by decide)

/-- Claim C8: The event `{"order_id": ""}` on the payment-failure topic
produces exactly one DLQ message, whose value carries the payment-failure
topic and the error reason `"Order ID is not valid"`, and issues no store
operation at all (orders, users and the operation log are untouched). -/
theorem C8_empty_order_id_to_dlq (st : CState) :
    processMsg false st TOPIC_PAY_FAIL (.obj [("order_id", "")]) =
      .ok ⟨st.orders, st.users,
           st.dlq ++ [⟨TOPIC_DLQ, [("topic", TOPIC_PAY_FAIL),
                                   ("error", "Order ID is not valid")]⟩],
           st.ops⟩ := by
  simp [processMsg, fail_ne_usr, fail_ne_succ, handlePayment, lookupKey, mkDlq,
    String.isEmpty_iff]

/-- Claim C10: When the status read fails with a database error, the helper
returns `False` instead of a status (first conjunct); the coordinator then
silently drops the payment event: no update, no DLQ record, no exception —
only the attempted read (second conjunct); and if the order was not
`Pending` anyway, the outcome with the failing read is literally the same
as with a healthy read (third conjunct). -/
theorem C10_db_error_silently_dropped :
    (∀ (orders : List (String × String)) (oid : String),
        check_order_status true orders oid = .falseVal) ∧
    (∀ (st : CState) (t oid : String) (data : List (String × String)),
        (t = TOPIC_PAY_SUCC ∨ t = TOPIC_PAY_FAIL) →
        lookupKey data "order_id" = some oid → oid ≠ "" →
        processMsg true st t (.obj data) =
          .ok { st with ops := st.ops ++ [.selectStatus oid] }) ∧
    (∀ (st : CState) (t oid : String) (data : List (String × String)),
        (t = TOPIC_PAY_SUCC ∨ t = TOPIC_PAY_FAIL) →
        lookupKey data "order_id" = some oid → oid ≠ "" →
        (check_order_status false st.orders oid).eqPending = false →
        processMsg true st t (.obj data) = processMsg false st t (.obj data)) := by
  have hdrop : ∀ (st : CState) (t oid : String) (data : List (String × String)),
      (t = TOPIC_PAY_SUCC ∨ t = TOPIC_PAY_FAIL) →
      lookupKey data "order_id" = some oid → oid ≠ "" →
      processMsg true st t (.obj data) =
        .ok { st with ops := st.ops ++ [.selectStatus oid] } := by
    intro st t oid data ht hd h0
    rcases ht with rfl | rfl
    · exact processMsg_notPending_step true st oid _ "Paid" data
        (Or.inl ⟨rfl, rfl⟩) rfl hd h0
    · exact processMsg_notPending_step true st oid _ "Failed" data
        (Or.inr ⟨rfl, rfl⟩) rfl hd h0
  refine ⟨fun _ _ => rfl, hdrop, ?_⟩
  intro st t oid data ht hd h0 hnp
  rw [hdrop st t oid data ht hd h0]
  rcases ht with rfl | rfl
  · exact (processMsg_notPending_step false st oid _ "Paid" data
      (Or.inl ⟨rfl, rfl⟩) hnp hd h0).symm
  · exact (processMsg_notPending_step false st oid _ "Failed" data
      (Or.inr ⟨rfl, rfl⟩) hnp hd h0).symm

/-- Closed instance of C10: a failing status read makes a success event for
a pending order a silent no-op. -/
theorem C10_db_error_silently_dropped_witness :
    check_order_status true [("X", "Pending")] "X" = .falseVal ∧
    processMsg true ⟨[("X", "Pending")], [], [], []⟩ TOPIC_PAY_SUCC
        (.obj [("order_id", "X")]) =
      .ok ⟨[("X", "Pending")], [], [], [.selectStatus "X"]⟩ :=
  ⟨C10_db_error_silently_dropped.1 [("X", "Pending")] "X",
   C10_db_error_silently_dropped.2.1 ⟨[("X", "Pending")], [], [], []⟩
     TOPIC_PAY_SUCC "X" [("order_id", "X")] (Or.inl rfl) (by decide)
     (by decide)⟩

/-- Claim C2, counterexample: A success event for order `"X"`, which does
not exist in the store, is consumed with **no** DLQ record produced (the
claim demands exactly one) and with no mutation: the only effect is the
status read itself. -/
theorem C2_counterexample :
    processMsg false ⟨[("Y", "Pending")], [], [], []⟩ TOPIC_PAY_SUCC
        (.obj [("order_id", "X")]) =
      .ok ⟨[("Y", "Pending")], [], [], [.selectStatus "X"]⟩ ∧
    (processMsg false ⟨[("Y", "Pending")], [], [], []⟩ TOPIC_PAY_SUCC
        (.obj [("order_id", "X")])).state.dlq.length = 0 := by
  constructor <;> decide

/-- Claim C2, amended: A payment event carrying a non-empty `order_id` that
matches no existing order is silently dropped: the status read returns
`None`, which is not `'Pending'`, so the coordinator produces no
dead-letter record and performs no mutation of the order store. -/
theorem C2_amended_notfound_dropped (st : CState) (t oid : String)
    (data : List (String × String))
    (ht : t = TOPIC_PAY_SUCC ∨ t = TOPIC_PAY_FAIL)
    (hd : lookupKey data "order_id" = some oid) (h0 : oid ≠ "")
    (hnf : lookupKey st.orders oid = none) :
    processMsg false st t (.obj data) =
      .ok { st with ops := st.ops ++ [.selectStatus oid] } := by
  have hnp : (check_order_status false st.orders oid).eqPending = false := by
    simp [check_order_status, hnf, CheckResult.eqPending]
  rcases ht with rfl | rfl
  · exact processMsg_notPending_step false st oid _ "Paid" data
      (Or.inl ⟨rfl, rfl⟩) hnp hd h0
  · exact processMsg_notPending_step false st oid _ "Failed" data
      (Or.inr ⟨rfl, rfl⟩) hnp hd h0

/-- Closed instance of the amended C2 at a concrete store without the
referenced order. -/
theorem C2_amended_notfound_dropped_witness :
    processMsg false ⟨[("Y", "Paid")], [], [], []⟩ TOPIC_PAY_FAIL
        (.obj [("order_id", "X")]) =
      .ok ⟨[("Y", "Paid")], [], [], [.selectStatus "X"]⟩ :=
  C2_amended_notfound_dropped ⟨[("Y", "Paid")], [], [], []⟩ TOPIC_PAY_FAIL
    "X" [("order_id", "X")] (Or.inr rfl) (by decide) (by decide) (by decide)

/-- Claim C4, counterexample: A single structurally malformed payload on the
user-registration topic terminates the consumption loop with an uncaught
JSON decode error — a per-message failure that is not contained and is not
a shutdown signal (the claim says only an explicit shutdown signal stops
consumption). -/
theorem C4_counterexample :
    runLoop false ⟨[], [], [], []⟩ [.msg TOPIC_USR_REG .malformed] =
      (⟨[], [], [], []⟩, .crashed .jsonDecodeError) := rfl

/-- Claim C4, amended: Poll-level failures are contained: a trace of empty
polls and broker-error poll results never terminates the loop and leaves
the state untouched (first conjunct), and the loop reports a clean
interrupted exit only when an explicit shutdown signal occurs in the trace
(second conjunct); but an exception raised while processing a message —
here a decode failure — escapes the loop and terminates consumption
regardless of what follows (third conjunct). -/
theorem C4_amended_containment :
    (∀ (dbFail : Bool) (st : CState) (items : List PollItem),
        (∀ i ∈ items, i = .empty ∨ ∃ b, i = .brokerError b) →
        runLoop dbFail st items = (st, .ranOut)) ∧
    (∀ (dbFail : Bool) (st st1 : CState) (items : List PollItem),
        runLoop dbFail st items = (st1, .interrupted) →
        .interrupt ∈ items) ∧
    (∀ (dbFail : Bool) (st : CState) (rest : List PollItem),
        runLoop dbFail st (.msg TOPIC_USR_REG .malformed :: rest) =
          (st, .crashed .jsonDecodeError)) := by
  refine ⟨?_, ?_, fun _ _ _ => rfl⟩
  · intro dbFail st items h
    induction items with
    | nil => rfl
    | cons i rest ih =>
      rcases h i (List.mem_cons_self i rest) with rfl | ⟨b, rfl⟩
      · exact ih fun j hj => h j (List.mem_cons_of_mem _ hj)
      · exact ih fun j hj => h j (List.mem_cons_of_mem _ hj)
  · intro dbFail st st1 items h
    induction items generalizing st with
    | nil => cases h
    | cons i rest ih =>
      cases i with
      | empty => exact List.mem_cons_of_mem _ (ih st h)
      | brokerError b => exact List.mem_cons_of_mem _ (ih st h)
      | interrupt => exact List.mem_cons_self _ _
      | msg t p =>
        revert h
        simp only [runLoop]
        cases processMsg dbFail st t p with
        | ok st2 => exact fun h => List.mem_cons_of_mem _ (ih st2 h)
        | exn e st2 => intro h; cases h

/-- Closed instance of the amended C4: a trace of an empty poll and a
broker error leaves the loop running with the state untouched. -/
theorem C4_amended_containment_witness :
    runLoop false ⟨[], [], [], []⟩ [.empty, .brokerError true] =
      (⟨[], [], [], []⟩, .ranOut) :=
  C4_amended_containment.1 false ⟨[], [], [], []⟩ [.empty, .brokerError true]
    (by
      intro i hi
      rcases List.mem_cons.mp hi with rfl | hi2
      · exact Or.inl rfl
      · rcases List.mem_cons.mp hi2 with rfl | h3
        · exact Or.inr ⟨true, rfl⟩
        · cases h3)

/-- Claim C5, counterexample: A payload on the user-registration topic with
the required key absent raises a `KeyError` instead of being routed to the
DLQ, and a structurally malformed payload raises a JSON decode error
instead of being routed with a parse-error reason; neither produces a DLQ
entry. -/
theorem C5_counterexample :
    processMsg false ⟨[], [], [], []⟩ TOPIC_USR_REG (.obj []) =
      .exn (.keyError "user_id") ⟨[], [], [], []⟩ ∧
    processMsg false ⟨[], [], [], []⟩ TOPIC_PAY_SUCC .malformed =
      .exn .jsonDecodeError ⟨[], [], [], []⟩ := by
  constructor <;> rfl

/-- Claim C5, amended: A required key that is present but empty is a
validation failure routed to the DLQ with the topic-specific reason and no
exception (first conjunct); but a payload in which the required key is
missing raises an uncaught `KeyError` (second conjunct), and a structurally
malformed payload raises an uncaught JSON decode error (third conjunct),
neither producing a DLQ entry. -/
theorem C5_amended_validation :
    (∀ (dbFail : Bool) (st : CState) (t k reason : String)
        (data : List (String × String)),
        requiredKey t = some (k, reason) →
        lookupKey data k = some "" →
        processMsg dbFail st t (.obj data) =
          .ok { st with dlq := st.dlq ++ [mkDlq t reason] }) ∧
    (∀ (dbFail : Bool) (st : CState) (t k reason : String)
        (data : List (String × String)),
        requiredKey t = some (k, reason) →
        lookupKey data k = none →
        processMsg dbFail st t (.obj data) = .exn (.keyError k) st) ∧
    (∀ (dbFail : Bool) (st : CState) (t : String),
        processMsg dbFail st t .malformed = .exn .jsonDecodeError st) := by
  have hsplit : ∀ (t k reason : String), requiredKey t = some (k, reason) →
      (t = TOPIC_USR_REG ∧ k = "user_id" ∧ reason = "User is not valid") ∨
      (t = TOPIC_PAY_SUCC ∧ k = "order_id" ∧ reason = "Order ID is not valid") ∨
      (t = TOPIC_PAY_FAIL ∧ k = "order_id" ∧ reason = "Order ID is not valid") := by
    intro t k reason h
    by_cases h1 : t = TOPIC_USR_REG
    · rw [requiredKey, if_pos h1] at h
      simp only [Option.some.injEq, Prod.mk.injEq] at h
      exact Or.inl ⟨h1, h.1.symm, h.2.symm⟩
    · by_cases h2 : t = TOPIC_PAY_SUCC
      · rw [requiredKey, if_neg h1, if_pos h2] at h
        simp only [Option.some.injEq, Prod.mk.injEq] at h
        exact Or.inr (Or.inl ⟨h2, h.1.symm, h.2.symm⟩)
      · by_cases h3 : t = TOPIC_PAY_FAIL
        · rw [requiredKey, if_neg h1, if_neg h2, if_pos h3] at h
          simp only [Option.some.injEq, Prod.mk.injEq] at h
          exact Or.inr (Or.inr ⟨h3, h.1.symm, h.2.symm⟩)
        · rw [requiredKey, if_neg h1, if_neg h2, if_neg h3] at h
          cases h
  refine ⟨?_, ?_, fun _ _ _ => rfl⟩
  · intro dbFail st t k reason data hreq hk
    rcases hsplit t k reason hreq with ⟨rfl, rfl, rfl⟩ | ⟨rfl, rfl, rfl⟩ |
      ⟨rfl, rfl, rfl⟩
    · simp [processMsg, hk, mkDlq, empty_isEmpty]
    · rw [processMsg_pay dbFail st TOPIC_PAY_SUCC "Paid" data
        (Or.inl ⟨rfl, rfl⟩)]
      unfold handlePayment
      rw [hk]
      simp [mkDlq, empty_isEmpty]
    · rw [processMsg_pay dbFail st TOPIC_PAY_FAIL "Failed" data
        (Or.inr ⟨rfl, rfl⟩)]
      unfold handlePayment
      rw [hk]
      simp [mkDlq, empty_isEmpty]
  · intro dbFail st t k reason data hreq hk
    rcases hsplit t k reason hreq with ⟨rfl, rfl, rfl⟩ | ⟨rfl, rfl, rfl⟩ |
      ⟨rfl, rfl, rfl⟩
    · simp [processMsg, hk]
    · rw [processMsg_pay dbFail st TOPIC_PAY_SUCC "Paid" data
        (Or.inl ⟨rfl, rfl⟩)]
      unfold handlePayment
      rw [hk]
    · rw [processMsg_pay dbFail st TOPIC_PAY_FAIL "Failed" data
        (Or.inr ⟨rfl, rfl⟩)]
      unfold handlePayment
      rw [hk]

/-- Closed instance of the amended C5: an empty `user_id` on the
registration topic yields exactly one DLQ record with the registration
topic's reason. -/
theorem C5_amended_validation_witness :
    processMsg false ⟨[], [], [], []⟩ TOPIC_USR_REG
        (.obj [("user_id", "")]) =
      .ok ⟨[], [], [mkDlq TOPIC_USR_REG "User is not valid"], []⟩ :=
  C5_amended_validation.1 false ⟨[], [], [], []⟩ TOPIC_USR_REG "user_id"
    "User is not valid" [("user_id", "")] rfl (by decide)

/-- Claim C6, counterexample: Registering `"u1"` twice: the first event
inserts the row, but the second raises a unique-constraint violation that
escapes the coordinator (the claim says the second registration succeeds as
an idempotent no-op with no duplicate-key violation surfaced). -/
theorem C6_counterexample :
    processMsg false ⟨[], [], [], []⟩ TOPIC_USR_REG
        (.obj [("user_id", "u1")]) =
      .ok ⟨[], ["u1"], [], [.insertUser "u1"]⟩ ∧
    processMsg false ⟨[], ["u1"], [], [.insertUser "u1"]⟩ TOPIC_USR_REG
        (.obj [("user_id", "u1")]) =
      .exn .uniqueViolation ⟨[], ["u1"], [], [.insertUser "u1"]⟩ := by
  constructor <;> rfl

/-- Claim C6, amended: A registration event for a user id not yet present
inserts the row (first conjunct); a registration event for a user id
already present makes the plain `INSERT` raise a unique-constraint
violation that escapes the coordinator loop — the second registration is
not an idempotent no-op (second conjunct). -/
theorem C6_amended_duplicate_insert :
    (∀ (dbFail : Bool) (st : CState) (uid : String)
        (data : List (String × String)),
        lookupKey data "user_id" = some uid → uid ≠ "" →
        uid ∉ st.users →
        processMsg dbFail st TOPIC_USR_REG (.obj data) =
          .ok { st with users := st.users ++ [uid],
                        ops := st.ops ++ [.insertUser uid] }) ∧
    (∀ (dbFail : Bool) (st : CState) (uid : String)
        (data : List (String × String)),
        lookupKey data "user_id" = some uid → uid ≠ "" →
        uid ∈ st.users →
        processMsg dbFail st TOPIC_USR_REG (.obj data) =
          .exn .uniqueViolation st) := by
  constructor
  · intro dbFail st uid data hd h0 hmem
    simp [processMsg, hd, String.isEmpty_iff, h0, insertUserRow, hmem]
  · intro dbFail st uid data hd h0 hmem
    simp [processMsg, hd, String.isEmpty_iff, h0, insertUserRow, hmem]

/-- Closed instance of the amended C6: a registration for a `user_id`
already in the table raises the unique-constraint violation. -/
theorem C6_amended_duplicate_insert_witness :
    processMsg false ⟨[], ["a", "u1"], [], []⟩ TOPIC_USR_REG
        (.obj [("user_id", "u1")]) =
      .exn .uniqueViolation ⟨[], ["a", "u1"], [], []⟩ :=
  C6_amended_duplicate_insert.2 false ⟨[], ["a", "u1"], [], []⟩ "u1"
    [("user_id", "u1")] (by decide) (by decide) (by decide)

/-- Effect of one payment-branch execution on the DLQ stream: unchanged, or
exactly one record `{topic, error}` appended. -/
lemma handlePayment_dlq (dbFail : Bool) (st : CState)
    (topic newStatus : String) (data : List (String × String)) :
    (handlePayment dbFail st topic newStatus data).state.dlq = st.dlq ∨
    (handlePayment dbFail st topic newStatus data).state.dlq =
      st.dlq ++ [mkDlq topic "Order ID is not valid"] := by
  unfold handlePayment
  cases hd : lookupKey data "order_id" with
  | none => left; rfl
  | some oid =>
    by_cases he : oid.isEmpty
    · right
      simp [he, StepResult.state]
    · simp only [he, Bool.false_eq_true, if_false]
      cases hp : (check_order_status dbFail st.orders oid).eqPending with
      | false => left; simp [hp, StepResult.state]
      | true => left; simp [hp, StepResult.state]

/-- Claim C9, counterexample: The event
`{"order_id": "", "amount": "100"}` on the payment-failure topic produces a
single DLQ record whose value holds only the `topic` and `error` fields:
the residual field `amount` of the original payload is not present in the
forwarded value (the claim demands all original fields preserved
verbatim). -/
theorem C9_counterexample :
    (processMsg false ⟨[], [], [], []⟩ TOPIC_PAY_FAIL
        (.obj [("order_id", ""), ("amount", "100")])).state.dlq =
      [⟨TOPIC_DLQ, [("topic", TOPIC_PAY_FAIL),
                    ("error", "Order ID is not valid")]⟩] ∧
    lookupKey [("topic", TOPIC_PAY_FAIL), ("error", "Order ID is not valid")]
        "amount" = none := by
  constructor <;> rfl

/-- Claim C9, amended: Every record the coordinator produces to the
dead-letter topic has a value consisting of exactly the source topic and
the error reason; the fields of the original payload are not forwarded. -/
theorem C9_amended_dlq_value_shape (dbFail : Bool) (st : CState)
    (t : String) (p : Payload) :
    (processMsg dbFail st t p).state.dlq = st.dlq ∨
    ∃ srcTopic err : String,
      (processMsg dbFail st t p).state.dlq =
        st.dlq ++ [⟨TOPIC_DLQ, [("topic", srcTopic), ("error", err)]⟩] := by
  cases p with
  | malformed => left; rfl
  | obj data =>
    by_cases h1 : t = TOPIC_USR_REG
    · simp only [processMsg, h1, if_pos rfl]
      cases lookupKey data "user_id" with
      | none => left; rfl
      | some uid =>
        by_cases he : uid.isEmpty
        · right
          exact ⟨TOPIC_USR_REG, "User is not valid", by
            simp [he, StepResult.state, mkDlq]⟩
        · simp only [he, Bool.false_eq_true, if_false]
          cases insertUserRow st.users uid with
          | error e => left; rfl
          | ok users1 => left; rfl
    · by_cases h2 : t = TOPIC_PAY_SUCC
      · simp only [processMsg, h1, if_false, h2, if_pos rfl]
        rcases handlePayment_dlq dbFail st TOPIC_PAY_SUCC "Paid" data with
          h | h
        · left; exact h
        · right; exact ⟨TOPIC_PAY_SUCC, "Order ID is not valid", h⟩
      · by_cases h3 : t = TOPIC_PAY_FAIL
        · simp only [processMsg, h1, if_false, h2, h3, if_pos rfl]
          rcases handlePayment_dlq dbFail st TOPIC_PAY_FAIL "Failed" data with
            h | h
          · left; exact h
          · right; exact ⟨TOPIC_PAY_FAIL, "Order ID is not valid", h⟩
        · left
          simp [processMsg, h1, h2, h3, StepResult.state]

/-- Running one payment handler's two micro-steps back to back reproduces
the payment branch's effect on the orders table: the micro-step model is
the branch, split at its read/write boundary. -/
lemma hstep_pair_eq_handlePayment (h : Handler) (st : CState)
    (topic : String) (hne : h.oid ≠ "") :
    (hstep (hstep ⟨h, .start⟩ st.orders).1 (hstep ⟨h, .start⟩ st.orders).2).2 =
      (handlePayment false st topic h.newStatus
          [("order_id", h.oid)]).state.orders := by
  have hd : lookupKey [("order_id", h.oid)] "order_id" = some h.oid := by
    simp [lookupKey]
  rw [handlePayment_valid false st topic h.newStatus h.oid _ hd hne]
  cases hp : (check_order_status false st.orders h.oid).eqPending with
  | true => simp [hstep, hp, StepResult.state]
  | false => simp [hstep, hp, StepResult.state]

/-- Claim C3, counterexample: The payment handler is a separate read
followed by a write, and interleaving two handlers for order `"X"` (a
success handler and a failure handler, both reading while the order is
still `Pending`) lets the second write overwrite the terminal status: after
the schedule read-A, read-B, write-A the order is `Paid` — terminal — and
the very next micro-step of the concurrent handler rewrites it to
`Failed`. -/
theorem C3_counterexample :
    runSched ⟨⟨"X", "Paid"⟩, .start⟩ ⟨⟨"X", "Failed"⟩, .start⟩
        [("X", "Pending")] [true, false, true] = [("X", "Paid")] ∧
    runSched ⟨⟨"X", "Paid"⟩, .start⟩ ⟨⟨"X", "Failed"⟩, .start⟩
        [("X", "Pending")] [true, false, true, false] = [("X", "Failed")] := by
  constructor <;> rfl

/-- Claim C3, amended: The status transition is implemented as a separate
status read followed by an update that is not conditioned on the stored
status: once a handler's read came back `'Pending'`, its write step
replaces the order's status whatever that status has become in the
meantime (first and second conjuncts), and consequently there is an
interleaving of two concurrent or redelivered events for the same order
that overwrites a terminal status (third conjunct). -/
theorem C3_amended_unconditioned_write :
    (∀ (h : Handler) (orders : List (String × String)),
        hstep ⟨h, .readDone (.val "Pending")⟩ orders =
          (⟨h, .done⟩, updateStatus orders h.oid h.newStatus)) ∧
    (∀ (oid cur new : String),
        updateStatus [(oid, cur)] oid new = [(oid, new)]) ∧
    (∃ sched : List Bool,
        runSched ⟨⟨"X", "Paid"⟩, .start⟩ ⟨⟨"X", "Failed"⟩, .start⟩
            [("X", "Pending")] sched = [("X", "Paid")] ∧
        runSched ⟨⟨"X", "Paid"⟩, .start⟩ ⟨⟨"X", "Failed"⟩, .start⟩
            [("X", "Pending")] (sched ++ [false]) = [("X", "Failed")]) := by
  refine ⟨fun h orders => rfl, ?_, [true, false, true], rfl, rfl⟩
  intro oid cur new
  rw [updateStatus_cons, if_pos rfl, updateStatus_nil]

end OrderConsumer
